import Mathlib

/-!
# A verification model of the poll_bot repository

This file gives a shallow embedding, in Lean 4, of the poll-resolution and
task-scheduling core of the `poll_bot` repository (`simple_poll_bot.py`,
`scheduled_tasks.py`, `task_storage.py`, `poll_storage.py`, `flask_app.py`),
together with theorems settling the specification claims about that core.

Modelling conventions:
* Python `dict`s are embedded as association lists (`List (key × value)`),
  which preserve the insertion order that Python dictionaries guarantee and
  that the resolution algorithm observes while iterating.
* Python `set`s of voter ids are embedded as `Finset Nat`.
* Instants are absolute UTC times in seconds, embedded as `Int`.  The Python
  code converts wall-clock Warsaw times to UTC before storing; working with
  absolute instants makes that conversion the identity.
* Python string comparison (`min`, `sorted`, `<`) is code-point
  lexicographic; it is embedded as an explicit comparison on `String.data`.
* Fallible calls (`add_scheduled_task` raising, the task-storage capability
  being absent) are embedded as explicit boolean parameters.
-/

set_option autoImplicit false

namespace PollBot

/-! ## String comparison (Python's `<` / `min` / `sorted` on `str`) -/

/-- Code-point lexicographic comparison of character lists, as Python
compares strings. -/
def listLtCh : List Char → List Char → Bool
  | [], [] => false
  | [], _ :: _ => true
  | _ :: _, [] => false
  | a :: as, b :: bs =>
    if a.toNat < b.toNat then true
    else if b.toNat < a.toNat then false
    else listLtCh as bs

/-- Python `a < b` on strings. -/
def strLt (a b : String) : Bool := listLtCh a.data b.data

/-- Python `a <= b` on strings. -/
def strLe (a b : String) : Bool := !(strLt b a)

/-- Python `min` over a nonempty string list (first minimal element wins,
as in CPython).  The empty case never occurs at its one call site. -/
def strListMin : List String → String
  | [] => ""
  | x :: xs => xs.foldl (fun acc y => if strLt y acc then y else acc) x

/-- Insert into a `strLe`-sorted list, keeping earlier elements first on
ties (stability, as Python's `sorted`). -/
def insertSorted (x : String) : List String → List String
  | [] => [x]
  | y :: ys => if strLe y x then y :: insertSorted x ys else x :: y :: ys

/-- Python `sorted` on a list of strings. -/
def sortStrings (l : List String) : List String := l.foldr insertSorted []

/-! ## Vote aggregation state (`simple_poll_bot.py`)

`vote_counts` in `self.active_polls[poll_id]` is a `dict` mapping option
text to the `set` of user ids currently voting for it; `user_vote_states`
maps `"{poll_id}_{user_id}"` to the list of option indices of the user's
latest answer.  We model the per-poll slices of both. -/

/-- The poll's per-option voter sets, in dictionary insertion order. -/
abbrev VoteMap := List (String × Finset Nat)

/-- `m[k]` presence test (`option_text in vote_counts`). -/
def vmHasKey (m : VoteMap) (k : String) : Bool := m.any (fun e => e.1 == k)

/-- In-place update of the value stored under key `k` (a Python dict has at
most one entry per key; mapping over all matching entries is equivalent). -/
def vmUpdate (m : VoteMap) (k : String) (f : Finset Nat → Finset Nat) : VoteMap :=
  m.map (fun e => if e.1 = k then (e.1, f e.2) else e)

/-- `vote_counts.setdefault(k, set()).add(u)`: lines 764–766 of
`simple_poll_bot.py` create the bucket if absent, then add the voter. -/
def vmAddVote (m : VoteMap) (k : String) (u : Nat) : VoteMap :=
  if vmHasKey m k then vmUpdate m k (insert u) else m ++ [(k, {u})]

/-- One step of the retraction loop (lines 747–756): for a previously
selected option index, remove the user from that option's bucket.  Removing
an absent member and re-writing an empty set are both no-ops on `Finset`. -/
def retractOne (options : List String) (u : Nat) (m : VoteMap) (i : Nat) : VoteMap :=
  if i < options.length then vmUpdate m (options.getD i "") (fun s => s.erase u) else m

/-- One step of the vote-adding loop (lines 761–767). -/
def addOne (options : List String) (u : Nat) (m : VoteMap) (i : Nat) : VoteMap :=
  if i < options.length then vmAddVote m (options.getD i "") u else m

/-- Per-user stored previous selections (`self.user_vote_states`),
restricted to one poll: user id → option-index list. -/
abbrev UserStates := List (Nat × List Nat)

/-- `self.user_vote_states.get(key, [])`. -/
def uvsGet (l : UserStates) (u : Nat) : List Nat :=
  match l.find? (fun e => e.1 == u) with
  | some e => e.2
  | none => []

/-- `self.user_vote_states[key] = current_option_ids`. -/
def uvsSet (l : UserStates) (u : Nat) (v : List Nat) : UserStates :=
  if l.any (fun e => e.1 == u) then l.map (fun e => if e.1 = u then (u, v) else e)
  else l ++ [(u, v)]

/-- The in-memory vote state of one active poll. -/
structure PollState where
  vote_counts : VoteMap
  user_vote_states : UserStates
deriving DecidableEq

/-- The vote-mutating core of `poll_answer_handler` (lines 726–783 of
`simple_poll_bot.py`): retract the user's previous selections, add the new
ones (the add loop body is guarded by `if current_option_ids:` but folding
over the empty list is the same), and store the new selection. -/
def poll_answer_handler (options : List String) (s : PollState) (u : Nat)
    (sel : List Nat) : PollState :=
  let prev := uvsGet s.user_vote_states u
  let m1 := prev.foldl (retractOne options u) s.vote_counts
  let m2 := sel.foldl (addOne options u) m1
  { vote_counts := m2, user_vote_states := uvsSet s.user_vote_states u sel }

/-! ## Poll resolution (`analyze_poll_results`, lines 1028–1167) -/

/-- The fixed "unavailable" sentinel option text. -/
def sentinel : String := "Не могу 😔"

/-- Union of all voters over all option buckets. -/
def allVoters (vcu : VoteMap) : Finset Nat := vcu.foldl (fun acc e => acc ∪ e.2) ∅

/-- `vote_counts` as computed at lines 1046–1048: per-option vote counts. -/
def countsOf (vcu : VoteMap) : List (String × Nat) := vcu.map (fun e => (e.1, e.2.card))

/-- `max(vote_counts.values()) if vote_counts else 0`. -/
def maxVotes (vcu : VoteMap) : Nat := vcu.foldl (fun a e => max a e.2.card) 0

/-- Case 1 test (lines 1076–1093): every voter of this option voted for no
other option. -/
def votersOnlyThis (vcu : VoteMap) (e : String × Finset Nat) : Bool :=
  decide (∀ v ∈ e.2, ∀ e2 ∈ vcu, e2.1 ≠ e.1 → v ∉ e2.2)

/-- The result dictionary returned by `analyze_poll_results`. -/
structure AnalysisResult where
  vote_counts : List (String × Nat)
  max_votes : Nat
  winner : Option String
  tied_options : List String
  has_tie : Bool
deriving DecidableEq

/-- `analyze_poll_results` (lines 1028–1167 of `simple_poll_bot.py`),
given the poll's per-option voter sets and the target member count:
* if fewer unique voters than the target, no winner yet;
* Case 1: first non-sentinel option covered by everyone where each of its
  voters voted only for it;
* Case 2: first non-sentinel option covered by everyone;
* Case 4: several options covered by everyone → `min` of their texts
  (unreachable: whenever its guard holds, the Case 2 scan above already
  returned the first covered option);
* everyone on the sentinel → `"EVERYONE_CANT_MAKE_IT"`;
* otherwise `"REVOTE_NEEDED"` with all options listed as tied. -/
def analyze_poll_results (vcu : VoteMap) (target : Nat) : AnalysisResult :=
  if (allVoters vcu).card < target then
    { vote_counts := countsOf vcu, max_votes := maxVotes vcu,
      winner := none, tied_options := [], has_tie := false }
  else
    match vcu.find? (fun e => e.1 != sentinel && e.2.card == target && votersOnlyThis vcu e) with
    | some e =>
      { vote_counts := countsOf vcu, max_votes := target,
        winner := some e.1, tied_options := [e.1], has_tie := false }
    | none =>
      match vcu.find? (fun e => e.1 != sentinel && e.2.card == target) with
      | some e =>
        { vote_counts := countsOf vcu, max_votes := target,
          winner := some e.1, tied_options := [e.1], has_tie := false }
      | none =>
        let options_everyone_voted :=
          (vcu.filter (fun e => e.1 != sentinel && e.2.card == target)).map (fun e => e.1)
        if options_everyone_voted.length > 1 then
          let earliest := strListMin options_everyone_voted
          { vote_counts := countsOf vcu, max_votes := target,
            winner := some earliest, tied_options := [earliest], has_tie := false }
        else
          let cant := (((vcu.find? (fun e => e.1 == sentinel)).map (fun e => e.2)).getD ∅)
          if cant.card = target then
            { vote_counts := countsOf vcu, max_votes := target,
              winner := some "EVERYONE_CANT_MAKE_IT", tied_options := [sentinel],
              has_tie := false }
          else
            { vote_counts := countsOf vcu, max_votes := maxVotes vcu,
              winner := some "REVOTE_NEEDED", tied_options := vcu.map (fun e => e.1),
              has_tie := true }

/-! ## Tie handling (`handle_tie_situation`, lines 1169–1270) -/

/-- The tie-state sub-record of a poll (in-memory state already merged with
the persisted row, as lines 1189–1201 do before the guard). -/
structure TieState where
  revote_notified : Bool
  in_revote : Bool
  last_tie_signature : Option String
  tie_message_count : Nat
deriving DecidableEq

/-- Normalized tie signature (lines 1182–1187): the non-sentinel tied
option texts, sorted and comma-joined; `""` when none remain. -/
def tieSignature (tiedOptions : List String) : String :=
  let tied := tiedOptions.filter (fun o => o != sentinel)
  if tied.isEmpty then "" else String.intercalate "," (sortStrings tied)

/-- `handle_tie_situation` (lines 1169–1270), for an active poll: returns
the result marker, whether a revote prompt message was sent, and the new
tie state.  The anti-spam guard (line 1204) returns early without sending
when `revote_notified` is already set, still persisting
`revote_notified/in_revote/last_tie_signature`; otherwise a prompt is sent
and the full tie state is updated (lines 1232–1237). -/
def handle_tie_situation (st : TieState) (tiedOptions : List String) :
    Option String × Bool × TieState :=
  let sig := tieSignature tiedOptions
  if st.revote_notified then
    (some "REVOTE_PROMPTED", false,
      { st with revote_notified := true, in_revote := true, last_tie_signature := some sig })
  else
    (some "REVOTE_PROMPTED", true,
      { revote_notified := true, in_revote := true, last_tie_signature := some sig,
        tie_message_count := st.tie_message_count + 1 })

/-- One tie detection applied to an accumulator of (current tie state,
messages sent so far, markers returned so far). -/
def tieStep (acc : TieState × Nat × List (Option String)) (ev : List String) :
    TieState × Nat × List (Option String) :=
  let r := handle_tie_situation acc.1 ev
  (r.2.2, acc.2.1 + (if r.2.1 then 1 else 0), acc.2.2 ++ [r.1])

/-- Repeated tie detections: fold `handle_tie_situation` over a sequence of
tie events, counting how many prompt messages were sent and collecting the
returned markers. -/
def runTies (st : TieState) (events : List (List String)) :
    TieState × Nat × List (Option String) :=
  events.foldl tieStep (st, 0, [])

/-! ## Task scheduling (`scheduled_tasks.py`)

`add_scheduled_task` may be unavailable (`ImportError` at module load, the
functions then return `False` immediately) or raise (caught by the
enclosing `try`, the functions then return `False`); both are modelled as
boolean parameters `avail` and `insertOk`.  Each function returns the
Python boolean result together with the scheduled UTC instant of the task
it persisted, if any. -/

/-- `ScheduledTaskManager.schedule_confirmation_message`
(`scheduled_tasks.py` lines 29–112).  `meeting` and `now` are absolute UTC
instants in seconds; `(meeting - now) / 3600 > 24` is the code's
`hours_until_meeting > 24`, and the Warsaw-to-naive-UTC conversion of an
absolute instant is the identity. -/
def schedule_confirmation_message (avail insertOk : Bool) (meeting now : Int) :
    Bool × Option Int :=
  if !avail then (false, none)
  else
    let diff := meeting - now
    if diff > 24 * 3600 then
      if insertOk then (true, some (meeting - 24 * 3600)) else (false, none)
    else if diff > 4 * 3600 then
      if insertOk then (true, some (meeting - 4 * 3600)) else (false, none)
    else (true, none)  -- `< 4h`: skipped, but still `return True`

/-- `ScheduledTaskManager.schedule_followup_message` (lines 114–168):
unconditionally 72 hours after the meeting. -/
def schedule_followup_message (avail insertOk : Bool) (meeting : Int) :
    Bool × Option Int :=
  if !avail then (false, none)
  else if insertOk then (true, some (meeting + 72 * 3600)) else (false, none)

/-- `ScheduledTaskManager.schedule_unpin_message` (lines 170–236):
unconditionally 10 hours after the meeting. -/
def schedule_unpin_message (avail insertOk : Bool) (meeting : Int) :
    Bool × Option Int :=
  if !avail then (false, none)
  else if insertOk then (true, some (meeting + 10 * 3600)) else (false, none)

/-! ## Durable storage rows (`poll_storage.py`, `task_storage.py`) -/

/-- A row of the `polls` table (the columns the sweep reads/writes). -/
structure PollRow where
  poll_id : String
  chat_id : Int
  is_closed : Bool
  created_at : Int
deriving DecidableEq

/-- A row of the `scheduled_tasks` table. -/
structure TaskRow where
  id : Nat
  chat_id : Int
  poll_id : Option String
  task_type : String
  scheduled_time : Int
  task_data : Option String
  is_executed : Bool
deriving DecidableEq

/-- The relational store: the two tables the sweep touches. -/
structure DBState where
  polls : List PollRow
  tasks : List TaskRow
deriving DecidableEq

/-- `poll_storage.get_expired_open_polls(days)`:
`is_closed = FALSE AND created_at < NOW() - INTERVAL days DAY`. -/
def get_expired_open_polls (now : Int) (days : Int) (polls : List PollRow) :
    List PollRow :=
  polls.filter (fun p => !p.is_closed && decide (p.created_at < now - days * 86400))

/-- `poll_storage.set_poll_closed(poll_id, True)`. -/
def set_poll_closed (polls : List PollRow) (pid : String) : List PollRow :=
  polls.map (fun p => if p.poll_id = pid then { p with is_closed := true } else p)

/-- `task_storage.get_due_tasks()`:
`is_executed = FALSE AND scheduled_time <= NOW()` (the `ORDER BY
scheduled_time ASC` is omitted; the executed-flag updates below are keyed
by task id, so the final table state does not depend on the order). -/
def get_due_tasks (now : Int) (tasks : List TaskRow) : List TaskRow :=
  tasks.filter (fun t => !t.is_executed && decide (t.scheduled_time ≤ now))

/-- `task_storage.mark_task_executed(task_id)`:
`UPDATE scheduled_tasks SET is_executed = TRUE WHERE id = task_id`. -/
def mark_task_executed (tasks : List TaskRow) (tid : Nat) : List TaskRow :=
  tasks.map (fun t => if t.id = tid then { t with is_executed := true } else t)

/-- `task_storage.cancel_chat_tasks(chat_id, task_type)`: marks every
pending task of the chat (optionally restricted to one type) executed. -/
def cancel_chat_tasks (tasks : List TaskRow) (cid : Int) (ttype : Option String) :
    List TaskRow :=
  tasks.map (fun t =>
    if t.chat_id = cid && (ttype.getD t.task_type) = t.task_type && !t.is_executed then
      { t with is_executed := true }
    else t)

/-! ## Task execution (`scheduled_tasks.TaskExecutor`, `flask_app.py`) -/

/-- Python `s.isdigit()` followed by `int(s)` for an optional payload
(`int(missing_votes_str) if missing_votes_str and missing_votes_str.isdigit()
else None`, `scheduled_tasks.py` line 409); `\d`/`isdigit` is modelled over
ASCII digits. -/
def parseMissingVotes (payload : Option String) : Option Nat :=
  match payload with
  | none => none
  | some s =>
    if !s.isEmpty && s.all Char.isDigit then
      some (s.data.foldl (fun n c => 10 * n + (c.toNat - '0'.toNat)) 0)
    else none

/-- `TaskExecutor.execute_voting_timeout_task` (`scheduled_tasks.py` lines
404–448): returns `true` when the call completes without raising.  A
missing/non-numeric `missing_votes` payload raises `RuntimeError` (the only
raising path in the model, where the chat gateway is assumed to deliver);
an absent or already-closed poll is skipped silently. -/
def execute_voting_timeout_task (polls : List PollRow) (t : TaskRow) : Bool :=
  match parseMissingVotes t.task_data with
  | none => false  -- `raise RuntimeError("DB task missing 'missing_votes'")`
  | some _ =>
    match t.poll_id with
    | none => true  -- `get_poll(None)` finds no row: skip, no error
    | some pid =>
      match polls.find? (fun p => p.poll_id == pid) with
      | none => true      -- poll not found in DB: skip
      | some _p => true   -- closed: skip; open: send reminder (delivered)

/-- The task types the dispatch in `run_scheduled_tasks` knows
(`flask_app.py` lines 614–638); an unknown type is logged and skipped
*without* being marked executed (`continue` before the mark). -/
def knownType (t : String) : Bool :=
  t == "confirmation" || t == "followup" || t == "unpin_message" ||
  t == "poll_voting_timeout" || t == "session_cleanup"

/-- Whether dispatching one due task completes without raising.  Only the
`poll_voting_timeout` dispatch has an in-code raising path (missing
payload); the other four types only fail on chat-gateway/database errors,
which the model assumes away. -/
def dispatch_ok (polls : List PollRow) (t : TaskRow) : Bool :=
  if t.task_type == "poll_voting_timeout" then execute_voting_timeout_task polls t
  else true

/-- The due-task loop of `run_scheduled_tasks` (`flask_app.py` lines
594–650): for each due task, dispatch by type; `mark_task_executed` runs
only *after* a dispatch that did not raise (the `except` branch logs and
`continue`s, skipping the mark); an unknown task type `continue`s before
dispatching.  Dispatch reads only the `polls` table, which the loop never
writes. -/
def processDueTasks (now : Int) (db : DBState) : DBState :=
  let due := get_due_tasks now db.tasks
  due.foldl
    (fun acc t =>
      if knownType t.task_type then
        if dispatch_ok acc.polls t then
          { acc with tasks := mark_task_executed acc.tasks t.id }
        else acc
      else acc)
    db

/-- The expired-poll sweep plus due-task loop of `run_scheduled_tasks`
(`flask_app.py` lines 536–666).  For each poll open longer than 2 days the
sweep stops the Telegram poll, marks the row closed, and then attempts
`from task_storage import cancel_poll_tasks` — an import that *fails*,
because `task_storage.py` defines no `cancel_poll_tasks`; the `except`
swallows the `ImportError` with a warning, so the scheduled-task table is
left untouched by the sweep phase. -/
def run_scheduled_tasks (now : Int) (db : DBState) : DBState :=
  let expired := get_expired_open_polls now 2 db.polls
  let db1 := expired.foldl
    (fun acc p => { acc with polls := set_poll_closed acc.polls p.poll_id }) db
  processDueTasks now db1

/-! ## `parse_meeting_datetime_from_poll_result` (`scheduled_tasks.py` 451–496) -/

/-- Match `\((\d{2})\.(\d{2})\)` at the head of the character list,
returning `(day, month)`; `\d` is modelled over ASCII digits. -/
def matchDateAt : List Char → Option (Nat × Nat)
  | '(' :: a :: b :: '.' :: c :: d :: ')' :: _ =>
    if a.isDigit && b.isDigit && c.isDigit && d.isDigit then
      some (10 * (a.toNat - '0'.toNat) + (b.toNat - '0'.toNat),
            10 * (c.toNat - '0'.toNat) + (d.toNat - '0'.toNat))
    else none
  | _ => none

/-- `re.search` for the date pattern: first position where it matches. -/
def findDate : List Char → Option (Nat × Nat)
  | [] => none
  | c :: rest =>
    match matchDateAt (c :: rest) with
    | some r => some r
    | none => findDate rest

/-- Match `(\d{1,2}):(\d{2})` with the greedy-then-backtrack behaviour of
`\d{1,2}`: try two hour digits first, then one. -/
def matchTimeDigits (l : List Char) : Option (Nat × Nat) :=
  match l with
  | a :: b :: ':' :: c :: d :: _ =>
    if a.isDigit && b.isDigit && c.isDigit && d.isDigit then
      some (10 * (a.toNat - '0'.toNat) + (b.toNat - '0'.toNat),
            10 * (c.toNat - '0'.toNat) + (d.toNat - '0'.toNat))
    else
      match l with
      | a :: ':' :: c :: d :: _ =>
        if a.isDigit && c.isDigit && d.isDigit then
          some (a.toNat - '0'.toNat, 10 * (c.toNat - '0'.toNat) + (d.toNat - '0'.toNat))
        else none
      | _ => none
  | a :: ':' :: c :: d :: _ =>
    if a.isDigit && c.isDigit && d.isDigit then
      some (a.toNat - '0'.toNat, 10 * (c.toNat - '0'.toNat) + (d.toNat - '0'.toNat))
    else none
  | _ => none

/-- Match `в (\d{1,2}):(\d{2})` at the head of the character list. -/
def matchTimeAt : List Char → Option (Nat × Nat)
  | 'в' :: ' ' :: rest => matchTimeDigits rest
  | _ => none

/-- `re.search(r'в (\d{1,2}):(\d{2})', s)`. -/
def findTime : List Char → Option (Nat × Nat)
  | [] => none
  | c :: rest =>
    match matchTimeAt (c :: rest) with
    | some r => some r
    | none => findTime rest

/-- Gregorian leap year, as Python's `datetime` uses. -/
def isLeapYear (y : Nat) : Bool := (y % 4 == 0 && y % 100 != 0) || (y % 400 == 0)

/-- Days in a month of the Gregorian calendar. -/
def daysInMonth (y m : Nat) : Nat :=
  match m with
  | 2 => if isLeapYear y then 29 else 28
  | 4 | 6 | 9 | 11 => 30
  | _ => 31

/-- The validation performed by the `datetime(year, month, day, hour,
minute, 0, 0, tzinfo)` constructor: out-of-range fields raise `ValueError`
(caught at line 494, turning the result into `None`). -/
def validDatetime (year month day hour minute : Nat) : Bool :=
  1 ≤ year && year ≤ 9999 && 1 ≤ month && month ≤ 12 &&
  1 ≤ day && day ≤ daysInMonth year month && hour ≤ 23 && minute ≤ 59

/-- `parse_meeting_datetime_from_poll_result` (`scheduled_tasks.py` lines
451–496): extract `(dd.mm)` (group 1 = day, group 2 = month) and optionally
`в h:mm`; default the time to 12:00; build the datetime in Europe/Warsaw
with the year current at parse time (passed here as `currentYear`).  The
result is the Warsaw wall-clock tuple `(year, month, day, hour, minute)`;
any `ValueError` from invalid fields yields `none`. -/
def parse_meeting_datetime_from_poll_result (currentYear : Nat) (s : String) :
    Option (Nat × Nat × Nat × Nat × Nat) :=
  match findDate s.data with
  | none => none
  | some (day, month) =>
    let hm := (findTime s.data).getD (12, 0)
    if validDatetime currentYear month day hm.1 hm.2 then
      some (currentYear, month, day, hm.1, hm.2)
    else none

/-! ## Theorems about the claims -/

/-- C1: when more than one non-sentinel option is covered by every target
voter and none qualifies for the unanimous-single case, `analyze_poll_results`
does **not** return the lexicographically smallest covered option: the
covered-by-all scan (Case 2) returns the first covered option in dictionary
insertion order before the `min`-based branch can run.  Here both `"B"` and
`"A"` are covered by all 2 target voters, the unanimous-single scan finds
nothing, `"A"` is lexicographically smaller, yet the winner is `"B"`. -/
theorem C1_covered_by_all_shadows_lexicographic :
    (allVoters [("B", ({1, 2} : Finset Nat)), ("A", {1, 2})]).card = 2 ∧
    ([("B", ({1, 2} : Finset Nat)), ("A", {1, 2})].filter
        (fun e => e.1 != sentinel && e.2.card == 2)).map (fun e => e.1) = ["B", "A"] ∧
    ([("B", ({1, 2} : Finset Nat)), ("A", {1, 2})].find?
        (fun e => e.1 != sentinel && e.2.card == 2 &&
          votersOnlyThis [("B", {1, 2}), ("A", {1, 2})] e)) = none ∧
    strLt "A" "B" = true ∧
    (analyze_poll_results [("B", ({1, 2} : Finset Nat)), ("A", {1, 2})] 2).winner
      = some "B" := by
  decide

/-- C2: one invocation of `run_scheduled_tasks` on a poll open for 3 days
(created at instant 0, swept at instant 259200) with a pending
`poll_voting_timeout` task closes the poll row but leaves the task
unexecuted: the `from task_storage import cancel_poll_tasks` at
`flask_app.py` line 588 raises `ImportError` (no such function exists in
`task_storage.py`), which the surrounding `except` logs and swallows. -/
theorem C2_sweep_closes_poll_without_cancelling_timeout_task :
    (run_scheduled_tasks 259200
        ⟨[⟨"p1", 10, false, 0⟩],
         [⟨7, 10, some "p1", "poll_voting_timeout", 300000, some "2", false⟩]⟩).polls
      = [⟨"p1", 10, true, 0⟩] ∧
    (run_scheduled_tasks 259200
        ⟨[⟨"p1", 10, false, 0⟩],
         [⟨7, 10, some "p1", "poll_voting_timeout", 300000, some "2", false⟩]⟩).tasks
      = [⟨7, 10, some "p1", "poll_voting_timeout", 300000, some "2", false⟩] := by
  decide

/-- C3 counterexample: a due `poll_voting_timeout` task whose payload lacks
the numeric missing-votes field is **not** marked executed by the sweep
(dispatch raises, the `except` skips `mark_task_executed`), and it is still
in the due set afterwards, i.e. it will be retried by the next sweep —
contradicting the claim that the task's executed flag becomes true and it
is never retried. -/
theorem C3_counterexample_failed_dispatch_left_pending :
    (run_scheduled_tasks 100
        ⟨[], [⟨3, 10, some "p9", "poll_voting_timeout", 50, none, false⟩]⟩).tasks
      = [⟨3, 10, some "p9", "poll_voting_timeout", 50, none, false⟩] ∧
    get_due_tasks 100
        (run_scheduled_tasks 100
          ⟨[], [⟨3, 10, some "p9", "poll_voting_timeout", 50, none, false⟩]⟩).tasks
      = [⟨3, 10, some "p9", "poll_voting_timeout", 50, none, false⟩] := by
  decide

/-- Helper for C4: folding tie detections from a state whose
`revote_notified` flag is set sends no message, appends only
`"REVOTE_PROMPTED"` markers, and keeps the flag set. -/
theorem runTies_notified_aux (events : List (List String)) :
    ∀ (st : TieState) (n : Nat) (rs : List (Option String)),
      st.revote_notified = true →
      (events.foldl tieStep (st, n, rs)).2.1 = n ∧
      (events.foldl tieStep (st, n, rs)).2.2.all (fun r => r == some "REVOTE_PROMPTED")
        = rs.all (fun r => r == some "REVOTE_PROMPTED") ∧
      (events.foldl tieStep (st, n, rs)).1.revote_notified = true := by
  induction events with
  | nil => intro st n rs h; exact ⟨rfl, rfl, h⟩
  | cons ev evs ih =>
    intro st n rs h
    have hstep : tieStep (st, n, rs) ev =
        (⟨true, true, some (tieSignature ev), st.tie_message_count⟩, n,
         rs ++ [some "REVOTE_PROMPTED"]) := by
      simp [tieStep, handle_tie_situation, h]
    rw [List.foldl_cons, hstep]
    obtain ⟨h1, h2, h3⟩ :=
      ih ⟨true, true, some (tieSignature ev), st.tie_message_count⟩ n
        (rs ++ [some "REVOTE_PROMPTED"]) rfl
    refine ⟨h1, ?_, h3⟩
    rw [h2, List.all_append]
    simp

/-- C4: once a poll's `revote_notified` flag is true, every tie detection
returns the `"REVOTE_PROMPTED"` marker without sending a prompt message,
and any number of further tie detections in sequence sends zero messages
and leaves the flag set. -/
theorem C4_revote_prompt_not_resent (st : TieState) (events : List (List String))
    (h : st.revote_notified = true) :
    (∀ ev, (handle_tie_situation st ev).1 = some "REVOTE_PROMPTED" ∧
           (handle_tie_situation st ev).2.1 = false) ∧
    (runTies st events).2.1 = 0 ∧
    (runTies st events).2.2.all (fun r => r == some "REVOTE_PROMPTED") = true ∧
    (runTies st events).1.revote_notified = true := by
  obtain ⟨h1, h2, h3⟩ := runTies_notified_aux events st 0 [] h
  refine ⟨fun ev => ?_, h1, ?_, h3⟩
  · constructor <;> simp [handle_tie_situation, h]
  · rw [show (runTies st events).2.2 = (events.foldl tieStep (st, 0, [])).2.2 from rfl, h2]
    rfl

/-- Witness for C4: a notified state fed two further tie detections. -/
theorem C4_witness :
    (handle_tie_situation ⟨true, true, some "A,B", 1⟩ ["B", "A"]).2.1 = false ∧
    (runTies ⟨true, true, some "A,B", 1⟩ [["B", "A"], ["B", "A"]]).2.1 = 0 ∧
    (runTies ⟨true, true, some "A,B", 1⟩ [["B", "A"], ["B", "A"]]).2.2.all
      (fun r => r == some "REVOTE_PROMPTED") = true ∧
    (runTies ⟨true, true, some "A,B", 1⟩
      [["B", "A"], ["B", "A"]]).1.revote_notified = true :=
  ⟨((C4_revote_prompt_not_resent ⟨true, true, some "A,B", 1⟩
      [["B", "A"], ["B", "A"]] rfl).1 ["B", "A"]).2,
   (C4_revote_prompt_not_resent ⟨true, true, some "A,B", 1⟩
      [["B", "A"], ["B", "A"]] rfl).2.1,
   (C4_revote_prompt_not_resent ⟨true, true, some "A,B", 1⟩
      [["B", "A"], ["B", "A"]] rfl).2.2.1,
   (C4_revote_prompt_not_resent ⟨true, true, some "A,B", 1⟩
      [["B", "A"], ["B", "A"]] rfl).2.2.2⟩

/-- Helper for C3: the due-task loop of `run_scheduled_tasks` keeps the
`polls` table fixed and reduces to a fold over the task table alone. -/
theorem processDueTasks_fold (P : List PollRow) (ds : List TaskRow) :
    ∀ (T : List TaskRow),
      List.foldl
        (fun (acc : DBState) (t : TaskRow) =>
          if knownType t.task_type then
            if dispatch_ok acc.polls t then
              DBState.mk acc.polls (mark_task_executed acc.tasks t.id)
            else acc
          else acc)
        (DBState.mk P T) ds
      = DBState.mk P
          (List.foldl
            (fun (acc : List TaskRow) (t : TaskRow) =>
              if knownType t.task_type && dispatch_ok P t then
                mark_task_executed acc t.id
              else acc) T ds) := by
  induction ds with
  | nil => intro T; rfl
  | cons d ds ih =>
    intro T
    rw [List.foldl_cons, List.foldl_cons]
    cases hk : knownType d.task_type with
    | false => simp only [hk, Bool.false_and, Bool.false_eq_true, if_false]; exact ih T
    | true =>
      cases ho : dispatch_ok P d with
      | false =>
        simp only [hk, ho, Bool.and_false, Bool.false_eq_true, if_false, if_true]
        exact ih T
      | true =>
        simp only [hk, ho, Bool.and_true, if_true]
        exact ih (mark_task_executed T d.id)

/-- Helper for C3: a fold of conditional executed-marks is the pointwise
map marking each row whose id is hit by some qualifying due task. -/
theorem foldl_mark_char (Q : TaskRow → Bool) (ds : List TaskRow) :
    ∀ (T : List TaskRow),
      ds.foldl (fun acc t => if Q t then mark_task_executed acc t.id else acc) T
        = T.map (fun t =>
            if ds.any (fun d => Q d && decide (t.id = d.id)) then
              { t with is_executed := true }
            else t) := by
  induction ds with
  | nil => intro T; simp
  | cons d ds ih =>
    intro T
    rw [List.foldl_cons]
    have hstep : (if Q d then mark_task_executed T d.id else T)
        = T.map (fun t =>
            if Q d && decide (t.id = d.id) then { t with is_executed := true } else t) := by
      cases hq : Q d with
      | false => simp
      | true =>
        simp only [Bool.true_and, mark_task_executed, if_true, decide_eq_true_eq]
    rw [hstep, ih, List.map_map]
    refine List.map_congr_left (fun t _ => ?_)
    simp only [Function.comp_apply, List.any_cons]
    by_cases h1 : (Q d && decide (t.id = d.id)) = true
    · have hid : ({ t with is_executed := true } : TaskRow).id = t.id := rfl
      simp only [h1, if_true, hid, Bool.true_or]
      by_cases h2 : (ds.any (fun d2 => Q d2 && decide (t.id = d2.id))) = true
      · simp only [h2, if_true]
      · simp only [h2, Bool.false_eq_true, if_false]
    · have h1f : (Q d && decide (t.id = d.id)) = false := by
        cases hb : (Q d && decide (t.id = d.id)) with
        | false => rfl
        | true => exact absurd hb h1
      simp only [h1f, Bool.false_eq_true, if_false, Bool.false_or]

/-- Helper for C3: with distinct task ids, a row of the table equals any
due task that shares its id. -/
theorem task_id_inj {T : List TaskRow} (hnd : (T.map TaskRow.id).Nodup)
    {a b : TaskRow} (ha : a ∈ T) (hb : b ∈ T) (h : a.id = b.id) : a = b :=
  List.inj_on_of_nodup_map hnd ha hb h

/-- C3 amended: with distinct task ids, one due-task sweep marks a task
executed exactly when the task was due, of a known type, and its dispatch
completed without raising; a due task whose dispatch raises (such as a
`poll_voting_timeout` task without the numeric missing-votes payload) is
left unchanged — still unexecuted, hence retried by later sweeps. -/
theorem C3_marked_executed_iff_dispatch_succeeds (now : Int) (db : DBState)
    (hnd : (db.tasks.map TaskRow.id).Nodup) :
    (processDueTasks now db).tasks
      = db.tasks.map (fun t =>
          if (!t.is_executed && decide (t.scheduled_time ≤ now)) &&
              (knownType t.task_type && dispatch_ok db.polls t) then
            { t with is_executed := true }
          else t) := by
  have h0 : processDueTasks now db
      = ⟨db.polls,
         (get_due_tasks now db.tasks).foldl
           (fun acc t =>
             if knownType t.task_type && dispatch_ok db.polls t then
               mark_task_executed acc t.id
             else acc) db.tasks⟩ :=
    processDueTasks_fold db.polls (get_due_tasks now db.tasks) db.tasks
  rw [h0]
  rw [foldl_mark_char (fun t => knownType t.task_type && dispatch_ok db.polls t)]
  refine List.map_congr_left (fun t ht => ?_)
  have hcond :
      ((get_due_tasks now db.tasks).any
        (fun d => (knownType d.task_type && dispatch_ok db.polls d) && decide (t.id = d.id)))
      = ((!t.is_executed && decide (t.scheduled_time ≤ now)) &&
          (knownType t.task_type && dispatch_ok db.polls t)) := by
    rw [Bool.eq_iff_iff]
    constructor
    · intro hany
      obtain ⟨d, hdmem, hd⟩ := List.any_eq_true.mp hany
      obtain ⟨hdT, hdue⟩ := List.mem_filter.mp hdmem
      rw [Bool.and_eq_true, decide_eq_true_eq] at hd
      have hdt : d = t := task_id_inj hnd hdT ht hd.2.symm
      subst hdt
      rw [Bool.and_eq_true]
      exact ⟨hdue, hd.1⟩
    · intro hconj
      rw [Bool.and_eq_true] at hconj
      refine List.any_eq_true.mpr ⟨t, List.mem_filter.mpr ⟨ht, hconj.1⟩, ?_⟩
      rw [Bool.and_eq_true, decide_eq_true_eq]
      exact ⟨hconj.2, rfl⟩
  rw [hcond]

/-- Witness for C3: a malformed `poll_voting_timeout` task stays pending
while a well-formed due `followup` task in the same table is marked. -/
theorem C3_witness :
    (processDueTasks 100
        ⟨[], [⟨3, 10, some "p9", "poll_voting_timeout", 50, none, false⟩,
              ⟨4, 11, none, "followup", 50, some "x", false⟩]⟩).tasks
      = [⟨3, 10, some "p9", "poll_voting_timeout", 50, none, false⟩,
         ⟨4, 11, none, "followup", 50, some "x", true⟩] := by
  rw [C3_marked_executed_iff_dispatch_succeeds 100
    ⟨[], [⟨3, 10, some "p9", "poll_voting_timeout", 50, none, false⟩,
          ⟨4, 11, none, "followup", 50, some "x", false⟩]⟩ (by decide)]
  decide

/-- C5: `schedule_confirmation_message` (with the task store available and
the insert succeeding) schedules the confirmation at `meeting − 24h` when
the meeting is more than 24 hours away, at `meeting − 4h` when it is more
than 4 but at most 24 hours away, and schedules nothing (while still
returning `True`) when it is 4 hours or less away. -/
theorem C5_confirmation_schedule_windows (meeting now : Int) :
    (meeting - now > 24 * 3600 →
      schedule_confirmation_message true true meeting now
        = (true, some (meeting - 24 * 3600))) ∧
    (4 * 3600 < meeting - now → meeting - now ≤ 24 * 3600 →
      schedule_confirmation_message true true meeting now
        = (true, some (meeting - 4 * 3600))) ∧
    (meeting - now ≤ 4 * 3600 →
      schedule_confirmation_message true true meeting now = (true, none)) := by
  refine ⟨fun h => ?_, fun h1 h2 => ?_, fun h => ?_⟩ <;>
    simp only [schedule_confirmation_message, Bool.not_true, Bool.false_eq_true,
      if_false, if_true] <;> split_ifs <;> first | rfl | omega

/-- Witness for C5 at three concrete instants, one per window. -/
theorem C5_witness :
    schedule_confirmation_message true true 200000 0 = (true, some (200000 - 24 * 3600)) ∧
    schedule_confirmation_message true true 50000 0 = (true, some (50000 - 4 * 3600)) ∧
    schedule_confirmation_message true true 10000 0 = (true, none) :=
  ⟨(C5_confirmation_schedule_windows 200000 0).1 (by decide),
   (C5_confirmation_schedule_windows 50000 0).2.1 (by decide) (by decide),
   (C5_confirmation_schedule_windows 10000 0).2.2 (by decide)⟩

/-- C6: when fewer unique voters than the target count have voted,
`analyze_poll_results` returns no winner, no tie, and no tied options (the
resolution cases are never reached). -/
theorem C6_no_winner_before_everyone_voted (vcu : VoteMap) (target : Nat)
    (h : (allVoters vcu).card < target) :
    (analyze_poll_results vcu target).winner = none ∧
    (analyze_poll_results vcu target).has_tie = false ∧
    (analyze_poll_results vcu target).tied_options = [] := by
  simp [analyze_poll_results, if_pos h]

/-- Witness for C6: one voter out of a target of two. -/
theorem C6_witness :
    (analyze_poll_results [("X", ({1} : Finset Nat))] 2).winner = none ∧
    (analyze_poll_results [("X", ({1} : Finset Nat))] 2).has_tie = false ∧
    (analyze_poll_results [("X", ({1} : Finset Nat))] 2).tied_options = [] :=
  C6_no_winner_before_everyone_voted [("X", {1})] 2 (by decide)

/-- Per-entry action of `retractOne`: erase the user from this entry when
the index selects this entry's option text. -/
def entryRetract (options : List String) (u : Nat) (e : String × Finset Nat)
    (i : Nat) : String × Finset Nat :=
  if i < options.length then
    (if e.1 = options.getD i "" then (e.1, e.2.erase u) else e)
  else e

/-- Per-entry action of `addOne` on an entry whose key is already present. -/
def entryAdd (options : List String) (u : Nat) (e : String × Finset Nat)
    (i : Nat) : String × Finset Nat :=
  if i < options.length then
    (if e.1 = options.getD i "" then (e.1, insert u e.2) else e)
  else e

/-- An option text is covered by a selection: some in-range selected index
denotes it. -/
def covered (options : List String) (L : List Nat) (k : String) : Prop :=
  ∃ i ∈ L, i < options.length ∧ options.getD i "" = k

instance (options : List String) (L : List Nat) (k : String) :
    Decidable (covered options L k) :=
  List.decidableBEx _ L

/-- Helper for C7: `retractOne` acts entrywise. -/
theorem retractOne_map (options : List String) (u : Nat) (m : VoteMap) (i : Nat) :
    retractOne options u m i = m.map (fun e => entryRetract options u e i) := by
  unfold retractOne entryRetract vmUpdate
  by_cases h : i < options.length
  · simp only [h, if_true]
  · simp only [h, if_false]
    exact (List.map_id' m).symm

/-- Helper for C7: a fold of `retractOne` acts entrywise. -/
theorem retract_foldl_map (options : List String) (u : Nat) (L : List Nat) :
    ∀ (m : VoteMap),
      L.foldl (retractOne options u) m
        = m.map (fun e => L.foldl (entryRetract options u) e) := by
  induction L with
  | nil => intro m; exact (List.map_id' m).symm
  | cons i t ih =>
    intro m
    rw [List.foldl_cons, retractOne_map, ih, List.map_map]
    exact List.map_congr_left (fun e _ => rfl)

/-- Helper for C7: the entrywise retract fold erases the user exactly when
the entry's key is covered by the retracted selection. -/
theorem entryRetract_foldl (options : List String) (u : Nat) (L : List Nat) :
    ∀ (e : String × Finset Nat),
      L.foldl (entryRetract options u) e
        = (e.1, if covered options L e.1 then e.2.erase u else e.2) := by
  induction L with
  | nil =>
    intro e
    have : ¬ covered options [] e.1 := by simp [covered]
    rw [List.foldl_nil, if_neg this]
  | cons i t ih =>
    intro e
    have hcov : covered options (i :: t) e.1
        ↔ (i < options.length ∧ options.getD i "" = e.1) ∨ covered options t e.1 := by
      constructor
      · rintro ⟨j, hj, hlen, hk⟩
        rcases List.mem_cons.mp hj with hj | hj
        · exact Or.inl ⟨hj ▸ hlen, hj ▸ hk⟩
        · exact Or.inr ⟨j, hj, hlen, hk⟩
      · rintro (⟨hlen, hk⟩ | ⟨j, hj, hlen, hk⟩)
        · exact ⟨i, List.mem_cons_self i t, hlen, hk⟩
        · exact ⟨j, List.mem_cons_of_mem i hj, hlen, hk⟩
    rw [List.foldl_cons]
    by_cases h1 : i < options.length
    · by_cases h2 : e.1 = options.getD i ""
      · have hstep : entryRetract options u e i = (e.1, e.2.erase u) := by
          unfold entryRetract
          rw [if_pos h1, if_pos h2]
        rw [hstep, ih]
        have : covered options (i :: t) e.1 := hcov.mpr (Or.inl ⟨h1, h2.symm⟩)
        rw [if_pos this]
        by_cases h3 : covered options t e.1
        · rw [if_pos h3, Finset.erase_idem]
        · rw [if_neg h3]
      · have hstep : entryRetract options u e i = e := by
          unfold entryRetract
          rw [if_pos h1, if_neg h2]
        rw [hstep, ih]
        have : covered options (i :: t) e.1 ↔ covered options t e.1 := by
          rw [hcov]
          constructor
          · rintro (⟨_, hk⟩ | hc)
            · exact absurd hk.symm h2
            · exact hc
          · exact Or.inr
        by_cases h3 : covered options t e.1
        · rw [if_pos h3, if_pos (this.mpr h3)]
        · rw [if_neg h3, if_neg (fun hc => h3 (this.mp hc))]
    · have hstep : entryRetract options u e i = e := by
        unfold entryRetract
        rw [if_neg h1]
      rw [hstep, ih]
      have : covered options (i :: t) e.1 ↔ covered options t e.1 := by
        rw [hcov]
        constructor
        · rintro (⟨hlen, _⟩ | hc)
          · exact absurd hlen h1
          · exact hc
        · exact Or.inr
      by_cases h3 : covered options t e.1
      · rw [if_pos h3, if_pos (this.mpr h3)]
      · rw [if_neg h3, if_neg (fun hc => h3 (this.mp hc))]

/-- Helper for C7: the entrywise add fold inserts the user exactly when the
entry's key is covered by the added selection. -/
theorem entryAdd_foldl (options : List String) (u : Nat) (L : List Nat) :
    ∀ (e : String × Finset Nat),
      L.foldl (entryAdd options u) e
        = (e.1, if covered options L e.1 then insert u e.2 else e.2) := by
  induction L with
  | nil =>
    intro e
    have : ¬ covered options [] e.1 := by simp [covered]
    rw [List.foldl_nil, if_neg this]
  | cons i t ih =>
    intro e
    have hcov : covered options (i :: t) e.1
        ↔ (i < options.length ∧ options.getD i "" = e.1) ∨ covered options t e.1 := by
      constructor
      · rintro ⟨j, hj, hlen, hk⟩
        rcases List.mem_cons.mp hj with hj | hj
        · exact Or.inl ⟨hj ▸ hlen, hj ▸ hk⟩
        · exact Or.inr ⟨j, hj, hlen, hk⟩
      · rintro (⟨hlen, hk⟩ | ⟨j, hj, hlen, hk⟩)
        · exact ⟨i, List.mem_cons_self i t, hlen, hk⟩
        · exact ⟨j, List.mem_cons_of_mem i hj, hlen, hk⟩
    rw [List.foldl_cons]
    by_cases h1 : i < options.length
    · by_cases h2 : e.1 = options.getD i ""
      · have hstep : entryAdd options u e i = (e.1, insert u e.2) := by
          unfold entryAdd
          rw [if_pos h1, if_pos h2]
        rw [hstep, ih]
        have : covered options (i :: t) e.1 := hcov.mpr (Or.inl ⟨h1, h2.symm⟩)
        rw [if_pos this]
        by_cases h3 : covered options t e.1
        · rw [if_pos h3, Finset.insert_idem]
        · rw [if_neg h3]
      · have hstep : entryAdd options u e i = e := by
          unfold entryAdd
          rw [if_pos h1, if_neg h2]
        rw [hstep, ih]
        have : covered options (i :: t) e.1 ↔ covered options t e.1 := by
          rw [hcov]
          constructor
          · rintro (⟨_, hk⟩ | hc)
            · exact absurd hk.symm h2
            · exact hc
          · exact Or.inr
        by_cases h3 : covered options t e.1
        · rw [if_pos h3, if_pos (this.mpr h3)]
        · rw [if_neg h3, if_neg (fun hc => h3 (this.mp hc))]
    · have hstep : entryAdd options u e i = e := by
        unfold entryAdd
        rw [if_neg h1]
      rw [hstep, ih]
      have : covered options (i :: t) e.1 ↔ covered options t e.1 := by
        rw [hcov]
        constructor
        · rintro (⟨hlen, _⟩ | hc)
          · exact absurd hlen h1
          · exact hc
        · exact Or.inr
      by_cases h3 : covered options t e.1
      · rw [if_pos h3, if_pos (this.mpr h3)]
      · rw [if_neg h3, if_neg (fun hc => h3 (this.mp hc))]

/-- Helper for C7: key-preserving entry maps preserve key presence. -/
theorem vmHasKey_map (f : String × Finset Nat → String × Finset Nat)
    (hf : ∀ e, (f e).1 = e.1) (k : String) :
    ∀ (m : VoteMap), vmHasKey (m.map f) k = vmHasKey m k := by
  intro m
  induction m with
  | nil => rfl
  | cons e t ih =>
    rw [List.map_cons]
    unfold vmHasKey at ih ⊢
    rw [List.any_cons, List.any_cons, ih, hf e]

/-- Helper for C7: `entryAdd` preserves an entry's key. -/
theorem entryAdd_fst (options : List String) (u : Nat) (i : Nat) :
    ∀ (e : String × Finset Nat), (entryAdd options u e i).1 = e.1 := by
  intro e
  unfold entryAdd
  split_ifs <;> rfl

/-- Helper for C7: `addOne` keeps every already-present key present. -/
theorem vmHasKey_addOne_mono (options : List String) (u : Nat) (i : Nat) (k : String)
    (m : VoteMap) (h : vmHasKey m k = true) :
    vmHasKey (addOne options u m i) k = true := by
  unfold addOne vmAddVote
  by_cases h1 : i < options.length
  · rw [if_pos h1]
    by_cases h2 : vmHasKey m (options.getD i "") = true
    · rw [if_pos h2]
      unfold vmUpdate
      rw [vmHasKey_map _ (fun e => by split_ifs <;> rfl) k m]
      exact h
    · rw [if_neg h2]
      unfold vmHasKey at h ⊢
      rw [List.any_append, h, Bool.true_or]
  · rw [if_neg h1]; exact h

/-- Helper for C7: `addOne` makes its own option key present. -/
theorem vmHasKey_addOne_self (options : List String) (u : Nat) (i : Nat)
    (m : VoteMap) (h1 : i < options.length) :
    vmHasKey (addOne options u m i) (options.getD i "") = true := by
  unfold addOne vmAddVote
  rw [if_pos h1]
  by_cases h2 : vmHasKey m (options.getD i "") = true
  · rw [if_pos h2]
    unfold vmUpdate
    rw [vmHasKey_map _ (fun e => by split_ifs <;> rfl) _ m]
    exact h2
  · rw [if_neg h2]
    unfold vmHasKey
    rw [List.any_append]
    simp

/-- Helper for C7: a fold of `addOne` keeps present keys present. -/
theorem vmHasKey_addFold_mono (options : List String) (u : Nat) (L : List Nat)
    (k : String) :
    ∀ (m : VoteMap), vmHasKey m k = true →
      vmHasKey (L.foldl (addOne options u) m) k = true := by
  induction L with
  | nil => intro m h; exact h
  | cons j t ih =>
    intro m h
    rw [List.foldl_cons]
    exact ih _ (vmHasKey_addOne_mono options u j k m h)

/-- Helper for C7: after folding `addOne` over a selection, every in-range
selected option's key is present. -/
theorem vmHasKey_addFold (options : List String) (u : Nat) (L : List Nat) :
    ∀ (m : VoteMap) (i : Nat), i ∈ L → i < options.length →
      vmHasKey (L.foldl (addOne options u) m) (options.getD i "") = true := by
  induction L with
  | nil => intro m i hi _; exact absurd hi (List.not_mem_nil i)
  | cons j t ih =>
    intro m i hi hlen
    rw [List.foldl_cons]
    rcases List.mem_cons.mp hi with h | h
    · subst h
      exact vmHasKey_addFold_mono options u t _ _ (vmHasKey_addOne_self options u i m hlen)
    · exact ih _ i h hlen

/-- Helper for C7: `addOne` preserves "the user is in every bucket whose
key is `k`". -/
theorem addOne_mem_key (options : List String) (u : Nat) (i : Nat)
    (m : VoteMap) (k : String) (hk : ∀ e ∈ m, e.1 = k → u ∈ e.2) :
    ∀ e ∈ addOne options u m i, e.1 = k → u ∈ e.2 := by
  intro e he hek
  unfold addOne vmAddVote at he
  by_cases h1 : i < options.length
  · rw [if_pos h1] at he
    by_cases h2 : vmHasKey m (options.getD i "") = true
    · rw [if_pos h2] at he
      unfold vmUpdate at he
      rcases List.mem_map.mp he with ⟨e0, he0, heq⟩
      by_cases h3 : e0.1 = options.getD i ""
      · rw [if_pos h3] at heq
        rw [← heq]
        exact Finset.mem_insert_self u e0.2
      · rw [if_neg h3] at heq
        rw [← heq] at hek ⊢
        exact hk e0 he0 hek
    · rw [if_neg h2] at he
      rcases List.mem_append.mp he with h | h
      · exact hk e h hek
      · have := List.mem_singleton.mp h
        subst this
        exact Finset.mem_singleton_self u
  · rw [if_neg h1] at he
    exact hk e he hek

/-- Helper for C7: `addOne` establishes "the user is in every bucket whose
key is the selected option". -/
theorem addOne_established (options : List String) (u : Nat) (i : Nat)
    (m : VoteMap) (h1 : i < options.length) :
    ∀ e ∈ addOne options u m i, e.1 = options.getD i "" → u ∈ e.2 := by
  intro e he hek
  unfold addOne vmAddVote at he
  rw [if_pos h1] at he
  by_cases h2 : vmHasKey m (options.getD i "") = true
  · rw [if_pos h2] at he
    unfold vmUpdate at he
    rcases List.mem_map.mp he with ⟨e0, he0, heq⟩
    by_cases h3 : e0.1 = options.getD i ""
    · rw [if_pos h3] at heq
      rw [← heq]
      exact Finset.mem_insert_self u e0.2
    · rw [if_neg h3] at heq
      rw [← heq] at hek
      exact absurd hek h3
  · rw [if_neg h2] at he
    rcases List.mem_append.mp he with h | h
    · exfalso
      apply h2
      unfold vmHasKey
      exact List.any_eq_true.mpr ⟨e, h, beq_iff_eq.mpr hek⟩
    · have := List.mem_singleton.mp h
      subst this
      exact Finset.mem_singleton_self u

/-- Helper for C7: a fold of `addOne` preserves per-key membership of the
user. -/
theorem addFold_mem_key (options : List String) (u : Nat) (L : List Nat)
    (k : String) :
    ∀ (m : VoteMap), (∀ e ∈ m, e.1 = k → u ∈ e.2) →
      ∀ e ∈ L.foldl (addOne options u) m, e.1 = k → u ∈ e.2 := by
  induction L with
  | nil => intro m hm; exact hm
  | cons j t ih =>
    intro m hm
    rw [List.foldl_cons]
    exact ih _ (addOne_mem_key options u j m k hm)

/-- Helper for C7: after folding `addOne` over a selection, the user is in
every bucket whose key the selection covers. -/
theorem addFold_covered_mem (options : List String) (u : Nat) (L : List Nat) :
    ∀ (m : VoteMap), ∀ e ∈ L.foldl (addOne options u) m,
      covered options L e.1 → u ∈ e.2 := by
  induction L with
  | nil => intro m e _ hc; exact absurd hc (by simp [covered])
  | cons j t ih =>
    intro m e he hc
    rw [List.foldl_cons] at he
    by_cases hct : covered options t e.1
    · exact ih _ e he hct
    · rcases hc with ⟨i, hiL, hlen, hk⟩
      rcases List.mem_cons.mp hiL with rfl | hit
      · exact addFold_mem_key options u t (options.getD i "") _
          (addOne_established options u i m hlen) e he hk.symm
      · exact absurd ⟨i, hit, hlen, hk⟩ hct

/-- Helper for C7: when its option key is present, `addOne` acts
entrywise. -/
theorem addOne_map_of_hasKey (options : List String) (u : Nat) (i : Nat)
    (m : VoteMap)
    (h : i < options.length → vmHasKey m (options.getD i "") = true) :
    addOne options u m i = m.map (fun e => entryAdd options u e i) := by
  unfold addOne entryAdd vmAddVote
  by_cases h1 : i < options.length
  · rw [if_pos h1, if_pos (h h1)]
    unfold vmUpdate
    simp only [h1, if_true]
  · rw [if_neg h1]
    simp only [h1, if_false]
    exact (List.map_id' m).symm

/-- Helper for C7: when every in-range selected key is present, the
`addOne` fold acts entrywise. -/
theorem addFold_map (options : List String) (u : Nat) (L : List Nat) :
    ∀ (m : VoteMap),
      (∀ i ∈ L, i < options.length → vmHasKey m (options.getD i "") = true) →
      L.foldl (addOne options u) m = m.map (fun e => L.foldl (entryAdd options u) e) := by
  induction L with
  | nil => intro m _; exact (List.map_id' m).symm
  | cons j t ih =>
    intro m hm
    have hpres : ∀ i ∈ t, i < options.length →
        vmHasKey (m.map (fun e => entryAdd options u e j)) (options.getD i "") = true := by
      intro i hi hlen
      rw [vmHasKey_map _ (entryAdd_fst options u j) _ m]
      exact hm i (List.mem_cons_of_mem j hi) hlen
    rw [List.foldl_cons,
        addOne_map_of_hasKey options u j m (fun hj => hm j (List.mem_cons_self j t) hj),
        ih _ hpres, List.map_map]
    exact List.map_congr_left (fun e _ => rfl)

/-- Helper for C7: retracting a selection and re-adding it returns the
table produced by adding it, for any starting table. -/
theorem retract_add_roundtrip (options : List String) (u : Nat) (sel : List Nat)
    (m1 : VoteMap) :
    sel.foldl (addOne options u)
        (sel.foldl (retractOne options u) (sel.foldl (addOne options u) m1))
      = sel.foldl (addOne options u) m1 := by
  set m2 := sel.foldl (addOne options u) m1 with hm2
  have hpres2 : ∀ i ∈ sel, i < options.length →
      vmHasKey m2 (options.getD i "") = true :=
    fun i hi hlen => vmHasKey_addFold options u sel m1 i hi hlen
  have hkey : ∀ e : String × Finset Nat,
      ((fun e => sel.foldl (entryRetract options u) e) e).1 = e.1 := by
    intro e
    show (sel.foldl (entryRetract options u) e).1 = e.1
    rw [entryRetract_foldl]
  have hpres3 : ∀ i ∈ sel, i < options.length →
      vmHasKey (m2.map (fun e => sel.foldl (entryRetract options u) e))
        (options.getD i "") = true := by
    intro i hi hlen
    rw [vmHasKey_map _ hkey _ m2]
    exact hpres2 i hi hlen
  rw [retract_foldl_map, addFold_map options u sel _ hpres3, List.map_map]
  have hpt : ∀ e ∈ m2,
      ((fun e => sel.foldl (entryAdd options u) e) ∘
        (fun e => sel.foldl (entryRetract options u) e)) e = (fun e => e) e := by
    intro e he
    have hmem : covered options sel e.1 → u ∈ e.2 :=
      fun hc => addFold_covered_mem options u sel m1 e he hc
    simp only [Function.comp_apply]
    rw [entryRetract_foldl, entryAdd_foldl]
    by_cases hc : covered options sel e.1
    · simp only [if_pos hc]
      rw [Finset.insert_erase (hmem hc)]
    · simp only [if_neg hc]
  rw [List.map_congr_left hpt, List.map_id']

/-- Helper for C7: reading back a just-written user selection. -/
theorem uvsGet_map_set (u : Nat) (v : List Nat) :
    ∀ (l : UserStates), l.any (fun e => e.1 == u) = true →
      uvsGet (l.map (fun e => if e.1 = u then (u, v) else e)) u = v := by
  intro l
  induction l with
  | nil => intro h; simp at h
  | cons e t ih =>
    intro h
    rw [List.map_cons]
    by_cases he : e.1 = u
    · rw [if_pos he]
      unfold uvsGet
      rw [List.find?_cons_of_pos _ (by simp)]
    · rw [if_neg he]
      have hne : (e.1 == u) = false := beq_eq_false_iff_ne.mpr he
      have ht : t.any (fun e => e.1 == u) = true := by
        rw [List.any_cons, hne, Bool.false_or] at h
        exact h
      unfold uvsGet
      rw [List.find?_cons_of_neg _ (by simp [hne])]
      exact ih ht

/-- Helper for C7: `uvsGet` after `uvsSet` returns the written value. -/
theorem uvsGet_set (l : UserStates) (u : Nat) (v : List Nat) :
    uvsGet (uvsSet l u v) u = v := by
  unfold uvsSet
  by_cases h : l.any (fun e => e.1 == u) = true
  · rw [if_pos h]
    exact uvsGet_map_set u v l h
  · rw [if_neg h]
    have hnone : l.find? (fun e => e.1 == u) = none := by
      rw [List.find?_eq_none]
      intro e he hb
      exact h (List.any_eq_true.mpr ⟨e, he, hb⟩)
    unfold uvsGet
    rw [List.find?_append, hnone]
    simp

/-- Helper for C7: writing the same user selection twice equals writing it
once. -/
theorem uvsSet_idem (l : UserStates) (u : Nat) (v : List Nat) :
    uvsSet (uvsSet l u v) u v = uvsSet l u v := by
  unfold uvsSet
  by_cases h : l.any (fun e => e.1 == u) = true
  · rw [if_pos h]
    have hany : (l.map (fun e => if e.1 = u then (u, v) else e)).any
        (fun e => e.1 == u) = true := by
      obtain ⟨e, he, hb⟩ := List.any_eq_true.mp h
      refine List.any_eq_true.mpr ⟨(u, v), List.mem_map.mpr ⟨e, he, ?_⟩, by simp⟩
      rw [if_pos (beq_iff_eq.mp hb)]
    rw [if_pos hany, List.map_map]
    refine List.map_congr_left (fun e _ => ?_)
    simp only [Function.comp_apply]
    by_cases he : e.1 = u
    · rw [if_pos he, if_pos rfl]
    · rw [if_neg he, if_neg he]
  · rw [if_neg h]
    have hany : (l ++ [(u, v)]).any (fun e => e.1 == u) = true := by
      rw [List.any_append]
      simp
    rw [if_pos hany, List.map_append]
    have hl : l.map (fun e => if e.1 = u then (u, v) else e) = l := by
      have h2 : ∀ e ∈ l, (if e.1 = u then (u, v) else e) = (fun e => e) e := by
        intro e he
        have hne : e.1 ≠ u := fun hh => h (List.any_eq_true.mpr ⟨e, he, beq_iff_eq.mpr hh⟩)
        simp [hne]
      rw [List.map_congr_left h2, List.map_id']
    rw [hl]
    simp

/-- C7: (idempotence) applying the same vote event twice in succession
yields exactly the same poll state — the same per-option voter sets and the
same stored selections, hence the same unique-voter count — as applying it
once; and (retraction) from any state whose buckets containing the user are
all covered by the user's recorded previous selection, an empty selection
removes the user from every option bucket. -/
theorem C7_apply_vote_idempotent_and_retraction (options : List String)
    (s : PollState) (u : Nat) (sel : List Nat) :
    poll_answer_handler options (poll_answer_handler options s u sel) u sel
      = poll_answer_handler options s u sel ∧
    ((∀ e ∈ s.vote_counts, u ∈ e.2 →
        covered options (uvsGet s.user_vote_states u) e.1) →
      (poll_answer_handler options s u []).vote_counts.all
        (fun e => decide (u ∉ e.2)) = true) := by
  constructor
  · simp only [poll_answer_handler, uvsGet_set, uvsSet_idem, PollState.mk.injEq]
    exact ⟨retract_add_roundtrip options u sel _, trivial⟩
  · intro h
    simp only [poll_answer_handler, List.foldl_nil]
    rw [List.all_eq_true]
    intro e' he'
    rw [retract_foldl_map] at he'
    rcases List.mem_map.mp he' with ⟨e0, he0, heq⟩
    rw [entryRetract_foldl] at heq
    cases heq
    rw [decide_eq_true_eq]
    show u ∉ (if covered options (uvsGet s.user_vote_states u) e0.1 then
      e0.2.erase u else e0.2)
    by_cases hc : covered options (uvsGet s.user_vote_states u) e0.1
    · rw [if_pos hc]
      exact Finset.not_mem_erase u e0.2
    · rw [if_neg hc]
      exact fun hu => hc (h e0 he0 hu)

/-- Witness for C7: a two-option poll where user 5 re-sends the selection
`[1]` and separately retracts with the empty selection. -/
theorem C7_witness :
    poll_answer_handler ["X", "Y"]
        (poll_answer_handler ["X", "Y"] ⟨[("X", {5})], [(5, [0])]⟩ 5 [1]) 5 [1]
      = poll_answer_handler ["X", "Y"] ⟨[("X", {5})], [(5, [0])]⟩ 5 [1] ∧
    (poll_answer_handler ["X", "Y"] ⟨[("X", {5})], [(5, [0])]⟩ 5 []).vote_counts.all
      (fun e => decide (5 ∉ e.2)) = true :=
  ⟨(C7_apply_vote_idempotent_and_retraction ["X", "Y"]
      ⟨[("X", {5})], [(5, [0])]⟩ 5 [1]).1,
   (C7_apply_vote_idempotent_and_retraction ["X", "Y"]
      ⟨[("X", {5})], [(5, [0])]⟩ 5 []).2 (by decide)⟩

/-- C8: with the task store available and inserts succeeding,
`schedule_unpin_message` always persists a task at `meeting + 10h` and
`schedule_followup_message` always persists one at `meeting + 72h`, for
every meeting instant, with no condition on how far away it is. -/
theorem C8_unpin_and_followup_offsets (meeting : Int) :
    schedule_unpin_message true true meeting = (true, some (meeting + 10 * 3600)) ∧
    schedule_followup_message true true meeting = (true, some (meeting + 72 * 3600)) :=
  ⟨rfl, rfl⟩

/-- C9: the boolean returned by `schedule_confirmation_message` is `true`
exactly when the task store is available and either the meeting is 4 hours
or less away (skip path, nothing persisted) or the insert succeeded — so
the caller cannot distinguish "scheduled" from "skipped" by the return
value. -/
theorem C9_confirmation_return_value (avail insertOk : Bool) (meeting now : Int) :
    (schedule_confirmation_message avail insertOk meeting now).1
      = (avail && (decide (meeting - now ≤ 4 * 3600) || insertOk)) := by
  cases avail <;> cases insertOk <;>
    simp only [schedule_confirmation_message, Bool.not_true, Bool.not_false,
      Bool.false_and, Bool.true_and, Bool.or_true, Bool.or_false, if_true, if_false,
      Bool.false_eq_true, Bool.true_eq_false] <;>
    split_ifs <;> simp_all <;> omega

/-- C10 counterexample: `"(99.99)"` contains the `(dd.mm)` pattern and no
time pattern, yet parsing returns `none` rather than day 99 of month 99 at
12:00 — the `datetime` constructor raises `ValueError` for the invalid
fields and the `except` turns that into `None`. -/
theorem C10_counterexample_invalid_date :
    findDate ("(99.99)".data) = some (99, 99) ∧
    findTime ("(99.99)".data) = none ∧
    parse_meeting_datetime_from_poll_result 2026 "(99.99)" = none := by
  decide

/-- C10 amended: parsing returns `none` when the string contains no
`(dd.mm)` pattern; when the pattern is present (first match day `d`, month
`m`), no time pattern is present, and the fields form a valid calendar
date, it returns that day and month at 12:00 with exactly the current year
`y` (Warsaw wall clock). -/
theorem C10_date_parse_amended (y : Nat) (s : String) :
    (findDate s.data = none → parse_meeting_datetime_from_poll_result y s = none) ∧
    (∀ d m, findDate s.data = some (d, m) → findTime s.data = none →
      validDatetime y m d 12 0 = true →
      parse_meeting_datetime_from_poll_result y s = some (y, m, d, 12, 0)) := by
  constructor
  · intro h
    simp [parse_meeting_datetime_from_poll_result, h]
  · intro d m hd ht hv
    simp [parse_meeting_datetime_from_poll_result, hd, ht, hv]

/-- Witness for C10 on a concrete result string with a date and no time. -/
theorem C10_witness :
    parse_meeting_datetime_from_poll_result 2026 "Пн (05.01)" = some (2026, 1, 5, 12, 0) :=
  (C10_date_parse_amended 2026 "Пн (05.01)").2 5 1 (by decide) (by decide) (by decide)

end PollBot
